import Mathlib

/-!
Shallow embedding of the external-tool provisioning subsystem of the `pbl`
repository (`cli/pkg/pkl/downloader.go`): the platform-compatibility table and
URL resolution (`getPklDownloadURL`), the release lookup against the GitHub
release index (`getLatestPklVersion`, including a model of the Go
`encoding/json` unmarshalling into `struct { TagName string }`), and the
orchestrating `Download` which fetches the binary and installs it with
executable permissions.  Effects (HTTP round trips, filesystem operations) are
made explicit: the HTTP client is a function from request URL to a transport
result, the filesystem is a map from path to file state, and every run returns
a trace of the externally visible events it performed, in order.
-/

namespace Pbl

/-- An HTTP response as seen by the downloader: numeric status code and raw
body (the body is modelled as fully available; a failing body reader is not
modelled). -/
structure Response where
  statusCode : Nat
  body : String
deriving Repr, DecidableEq

/-- The injected HTTP client (`HTTPClient.Do`), keyed by request URL: either a
transport-level error message or a response.  `http.NewRequest` for a GET with
the URLs built here is modelled as always succeeding. -/
def Client : Type := String → Except String Response

/-- The fixed release-index endpoint queried by `getLatestPklVersion`. -/
def releasesLatestURL : String :=
  "https://api.github.com/repos/apple/pkl/releases/latest"

/-- The static platform compatibility table (`downloadMap` inside
`getPklDownloadURL`), keyed by `GOOS/GOARCH`. -/
def downloadMap : List (String × String) :=
  [("darwin/amd64", "pkl-macos-amd64"),
   ("darwin/arm64", "pkl-macos-aarch64"),
   ("linux/amd64", "pkl-linux-amd64"),
   ("linux/arm64", "pkl-linux-aarch64"),
   ("windows/amd64", "pkl-windows-amd64.exe")]

/-- The five `(GOOS, GOARCH)` pairs the table supports, as pairs. -/
def supportedPairs : List (String × String) :=
  [("darwin", "amd64"), ("darwin", "arm64"),
   ("linux", "amd64"), ("linux", "arm64"),
   ("windows", "amd64")]

/-- The key format `fmt.Sprintf("%s/%s", goos, goarch)`. -/
def lookupKey (goos goarch : String) : String := goos ++ "/" ++ goarch

/-- Model of `getPklDownloadURL`: on a table hit, the fixed base release-download URL
plus version plus the platform filename; on a miss, the unsupported-platform
error carrying the offending pair verbatim. -/
def getPklDownloadURL (goos goarch version : String) : Except String String :=
  let baseURL := "https://github.com/apple/pkl/releases/download/" ++ version ++ "/"
  match downloadMap.lookup (lookupKey goos goarch) with
  | some filename => .ok (baseURL ++ filename)
  | none =>
      .error ("unsupported OS/architecture combination: " ++ goos ++ "/" ++ goarch)

example :
    getPklDownloadURL "linux" "amd64" "0.28.2" =
      .ok "https://github.com/apple/pkl/releases/download/0.28.2/pkl-linux-amd64" := by
  rfl

example :
    downloadMap.map Prod.fst = supportedPairs.map (fun p => lookupKey p.1 p.2) := by
  decide

/-! ### A model of Go `encoding/json` unmarshalling

`getLatestPklVersion` decodes the response body with
`json.Unmarshal(body, &struct { TagName string json:"tag_name" })`.
We model the JSON grammar (values, strings with escapes, numbers, arrays,
objects, the four whitespace characters) and the decoding of a value into
that one-field struct: a top-level `null` is a no-op, a top-level object
assigns each member whose key folds to `tag_name` (later members win), any
other top-level shape or a non-string member value is a decode error.
Characters that the layout of this file cannot spell directly are named. -/

/-- The double-quote character. -/
def quoteChar : Char := Char.ofNat 34

/-- The backslash character. -/
def backslash : Char := Char.ofNat 92

/-- The opening curly brace. -/
def lbrace : Char := Char.ofNat 123

/-- The closing curly brace. -/
def rbrace : Char := Char.ofNat 125

/-- JSON insignificant whitespace: space, tab, line feed, carriage return. -/
def isWs (c : Char) : Bool :=
  c = ' ' || c = Char.ofNat 9 || c = Char.ofNat 10 || c = Char.ofNat 13

/-- Drop leading JSON whitespace. -/
def skipWs : List Char → List Char
  | [] => []
  | c :: cs => if isWs c then skipWs cs else c :: cs

/-- Value of a hexadecimal digit. -/
def hexVal (c : Char) : Option Nat :=
  if '0' ≤ c ∧ c ≤ '9' then some (c.toNat - 48)
  else if 'a' ≤ c ∧ c ≤ 'f' then some (c.toNat - 87)
  else if 'A' ≤ c ∧ c ≤ 'F' then some (c.toNat - 55)
  else none

/-- Single-character JSON escapes. -/
def escChar (c : Char) : Option Char :=
  if c = quoteChar then some quoteChar
  else if c = backslash then some backslash
  else if c = '/' then some '/'
  else if c = 'b' then some (Char.ofNat 8)
  else if c = 'f' then some (Char.ofNat 12)
  else if c = 'n' then some (Char.ofNat 10)
  else if c = 'r' then some (Char.ofNat 13)
  else if c = 't' then some (Char.ofNat 9)
  else none

/-- Body of a JSON string after the opening quote: decoded characters plus the
input remaining after the closing quote.  Unescaped control characters are
rejected; `\uXXXX` needs exactly four hex digits (surrogate pairs are decoded
individually, which the claims never exercise). -/
def parseStrBody : Nat → List Char → Option (List Char × List Char)
  | 0, _ => none
  | fuel + 1, cs =>
    match cs with
    | [] => none
    | c :: rest =>
      if c = quoteChar then some ([], rest)
      else if c = backslash then
        match rest with
        | 'u' :: a :: b :: e :: d :: r2 =>
          match hexVal a, hexVal b, hexVal e, hexVal d with
          | some ha, some hb, some he, some hd =>
            (parseStrBody fuel r2).map fun p =>
              (Char.ofNat (((ha * 16 + hb) * 16 + he) * 16 + hd) :: p.1, p.2)
          | _, _, _, _ => none
        | e :: r2 =>
          match escChar e with
          | some d => (parseStrBody fuel r2).map fun p => (d :: p.1, p.2)
          | none => none
        | [] => none
      else if c.toNat < 32 then none
      else (parseStrBody fuel rest).map fun p => (c :: p.1, p.2)

/-- Decimal digit test. -/
def isDigit (c : Char) : Bool := '0' ≤ c && c ≤ '9'

/-- Split off the longest leading run of decimal digits. -/
def spanDigits : List Char → List Char × List Char
  | [] => ([], [])
  | c :: cs =>
    if isDigit c then
      let p := spanDigits cs
      (c :: p.1, p.2)
    else ([], c :: cs)

/-- Integer part of a JSON number: `0`, or a nonzero digit followed by
digits. -/
def parseIntPart : List Char → Option (List Char × List Char)
  | [] => none
  | c :: cs =>
    if c = '0' then some ([c], cs)
    else if isDigit c then
      let p := spanDigits cs
      some (c :: p.1, p.2)
    else none

/-- Optional fraction part: `.` followed by at least one digit. -/
def parseFracPart (cs : List Char) : Option (List Char × List Char) :=
  match cs with
  | '.' :: r =>
    match spanDigits r with
    | ([], _) => none
    | (d, r2) => some ('.' :: d, r2)
  | _ => some ([], cs)

/-- Optional exponent part: `e` or `E`, optional sign, at least one digit. -/
def parseExpPart (cs : List Char) : Option (List Char × List Char) :=
  match cs with
  | c :: r =>
    if c = 'e' ∨ c = 'E' then
      let q : List Char × List Char :=
        match r with
        | s :: r2 => if s = '+' ∨ s = '-' then ([s], r2) else ([], s :: r2)
        | [] => ([], [])
      match spanDigits q.2 with
      | ([], _) => none
      | (d, r2) => some (c :: (q.1 ++ d), r2)
    else some ([], c :: r)
  | [] => some ([], [])

/-- A JSON number lexeme: optional minus, integer part, optional fraction,
optional exponent. -/
def parseNumber (cs : List Char) : Option (List Char × List Char) :=
  let q : List Char × List Char :=
    match cs with
    | '-' :: r => (['-'], r)
    | _ => ([], cs)
  match parseIntPart q.2 with
  | none => none
  | some (ip, r1) =>
    match parseFracPart r1 with
    | none => none
    | some (fp, r2) =>
      match parseExpPart r2 with
      | none => none
      | some (ep, r3) => some (q.1 ++ ip ++ fp ++ ep, r3)

/-- JSON values; numbers are kept as their lexeme, which the decoder never
inspects. -/
inductive Json where
  | null
  | bool (b : Bool)
  | num (lexeme : String)
  | str (s : String)
  | arr (elems : List Json)
  | obj (members : List (String × Json))

mutual

/-- One JSON value, by recursive descent.  The fuel only bounds the recursion
depth (it is spent strictly faster than input is consumed, so the budget
passed by `parseJson` can never be exhausted on a value the grammar
accepts). -/
def parseValue : Nat → List Char → Option (Json × List Char)
  | 0, _ => none
  | fuel + 1, cs =>
    match skipWs cs with
    | [] => none
    | 'n' :: 'u' :: 'l' :: 'l' :: rest => some (.null, rest)
    | 't' :: 'r' :: 'u' :: 'e' :: rest => some (.bool true, rest)
    | 'f' :: 'a' :: 'l' :: 's' :: 'e' :: rest => some (.bool false, rest)
    | c :: rest =>
      if c = quoteChar then
        (parseStrBody (rest.length + 1) rest).map fun p => (.str (String.mk p.1), p.2)
      else if c = '[' then
        match skipWs rest with
        | ']' :: r2 => some (.arr [], r2)
        | r2 => (parseElems fuel r2).map fun p => (.arr p.1, p.2)
      else if c = lbrace then
        let r2 := skipWs rest
        match r2 with
        | d :: r3 =>
          if d = rbrace then some (.obj [], r3)
          else (parseMembers fuel (d :: r3)).map fun p => (.obj p.1, p.2)
        | [] => none
      else
        (parseNumber (c :: rest)).map fun p => (.num (String.mk p.1), p.2)

/-- Comma-separated array elements up to the closing bracket. -/
def parseElems : Nat → List Char → Option (List Json × List Char)
  | 0, _ => none
  | fuel + 1, cs => do
    let (v, r) ← parseValue fuel cs
    match skipWs r with
    | ',' :: r2 => do
      let (vs, r3) ← parseElems fuel r2
      pure (v :: vs, r3)
    | ']' :: r2 => pure ([v], r2)
    | _ => none

/-- Comma-separated `key : value` members up to the closing brace. -/
def parseMembers : Nat → List Char → Option (List (String × Json) × List Char)
  | 0, _ => none
  | fuel + 1, cs =>
    match skipWs cs with
    | c :: r =>
      if c = quoteChar then
        match parseStrBody (r.length + 1) r with
        | none => none
        | some (k, r1) =>
          match skipWs r1 with
          | ':' :: r2 =>
            match parseValue fuel r2 with
            | none => none
            | some (v, r3) =>
              match skipWs r3 with
              | d :: r4 =>
                if d = ',' then
                  match parseMembers fuel r4 with
                  | none => none
                  | some (ms, r5) => some ((String.mk k, v) :: ms, r5)
                else if d = rbrace then some ([(String.mk k, v)], r4)
                else none
              | [] => none
          | _ => none
      else none
    | [] => none

end

/-- Parse a whole body as one JSON document; trailing non-whitespace is
rejected, as `json.Unmarshal` rejects data after the top-level value. -/
def parseJson (s : String) : Option Json :=
  match parseValue (2 * s.data.length + 2) s.data with
  | some (j, rest) => if skipWs rest = [] then some j else none
  | none => none

/-- ASCII lower-casing, enough for the keys this decoder folds. -/
def asciiLower (c : Char) : Char :=
  if 'A' ≤ c ∧ c ≤ 'Z' then Char.ofNat (c.toNat + 32) else c

/-- Case-insensitive key match, as `json.Unmarshal` accepts for struct
fields (modelled on ASCII, which every key in play is). -/
def eqFold (a b : String) : Bool :=
  a.data.map asciiLower == b.data.map asciiLower

/-- Fold the object members into the `TagName` field, in order, later
matching members overwriting earlier ones; a matching member must hold a
string (a `null` leaves the field unchanged). -/
def decodeMembers : List (String × Json) → String → Except String String
  | [], acc => .ok acc
  | (k, v) :: rest, acc =>
    if eqFold k "tag_name" then
      match v with
      | .str s => decodeMembers rest s
      | .null => decodeMembers rest acc
      | _ => .error "cannot unmarshal value into string field tag_name"
    else decodeMembers rest acc

/-- Decode a JSON value into `struct { TagName string }`: `null` is a no-op
leaving the zero value, an object is folded member-wise, anything else is a
type error. -/
def decodeRelease (j : Json) : Except String String :=
  match j with
  | .null => .ok ""
  | .obj ms => decodeMembers ms ""
  | _ => .error "cannot unmarshal value into release struct"

/-- Model of `json.Unmarshal(body, &release)`: syntax error if the body is not one
JSON document, else decode it into the one-field struct. -/
def unmarshalRelease (body : String) : Except String String :=
  match parseJson body with
  | none => .error "invalid JSON body"
  | some j => decodeRelease j

/-- Model of `getLatestPklVersion`: one GET to the fixed release index; a transport
error or a non-200 status or an undecodable body fails with the messages the
Go code formats; otherwise the decoded `tag_name`. -/
def getLatestPklVersion (client : Client) : Except String String :=
  match client releasesLatestURL with
  | .error e => .error ("failed to fetch latest release: " ++ e)
  | .ok resp =>
    if resp.statusCode = 200 then
      match unmarshalRelease resp.body with
      | .error e => .error ("failed to parse release data: " ++ e)
      | .ok tag => .ok tag
    else
      .error ("failed to fetch latest release: status code " ++ toString resp.statusCode)

example :
    unmarshalRelease "\x7b\"tag_name\": \"0.28.2\"\x7d" = .ok "0.28.2" := by rfl

example : unmarshalRelease "\x7b\x7d" = .ok "" := by rfl

example : unmarshalRelease "" = .error "invalid JSON body" := by rfl

example : unmarshalRelease "not json" = .error "invalid JSON body" := by rfl

/-! ### The orchestrating `Download`

`Download(path)` looks up the latest version, resolves the platform URL,
GETs the artifact, then installs it: `fs.Create(path)` (which truncates to an
empty file with the default creation mode), `io.Copy` of the body, and
`fs.Chmod(path, 0755)`.  The filesystem is a map from path to file state; the
three file operations can be made to fail through the `World` record, a
failing copy having written some prefix of the body.  Every run also returns
the ordered trace of attempted external events, which is what "is invoked" /
"is attempted" means below. -/

/-- State of one file: its content and its permission bits. -/
structure FileState where
  content : String
  mode : Nat
deriving Repr, DecidableEq

/-- The filesystem: a map from path to file state. -/
def FS : Type := String → Option FileState

/-- Overwrite the entry of one path. -/
def FS.update (fs : FS) (p : String) (f : FileState) : FS :=
  fun q => if q = p then some f else fs q

/-- The mode `fs.Create` gives a fresh file before any chmod (0666, the
default creation mode, not executable). -/
def defaultCreateMode : Nat := 0o666

/-- The mode `Download` sets explicitly: 0755. -/
def executableMode : Nat := 0o755

/-- Externally visible events of one run, in order of attempt. -/
inductive Event where
  | httpRequest (url : String)
  | resolveCall (goos goarch version : String)
  | fsCreate (path : String)
  | fsWrite (path : String)
  | fsChmod (path : String) (mode : Nat)
deriving Repr, DecidableEq

/-- Is this event an HTTP request? -/
def Event.isHttp : Event → Bool
  | .httpRequest _ => true
  | _ => false

/-- Is this event a call of the artifact resolver? -/
def Event.isResolve : Event → Bool
  | .resolveCall _ _ _ => true
  | _ => false

/-- Is this event a file-creation attempt? -/
def Event.isCreate : Event → Bool
  | .fsCreate _ => true
  | _ => false

/-- Is this event a chmod attempt? -/
def Event.isChmod : Event → Bool
  | .fsChmod _ _ => true
  | _ => false

/-- Everything a run of `Download` depends on: the injected HTTP client, the
`GOOS`/`GOARCH` of the injected runtime, and the outcome of each fallible
filesystem operation (`none` = succeeds; a failing copy carries how many
bytes it wrote before failing and its error message). -/
structure World where
  client : Client
  goos : String
  goarch : String
  createErr : Option String
  copyErr : Option (Nat × String)
  chmodErr : Option String

/-- Model of `Download`: version lookup, URL resolution, artifact GET with status
check, then create / copy / chmod, each failure wrapped with its
stage-identifying prefix exactly as the Go `fmt.Errorf` calls spell it.
Returns the result, the final filesystem, and the event trace. -/
def Download (w : World) (path : String) (fs : FS) :
    Except String Unit × FS × List Event :=
  let e1 : List Event := [.httpRequest releasesLatestURL]
  match getLatestPklVersion w.client with
  | .error err => (.error ("failed to get latest version: " ++ err), fs, e1)
  | .ok version =>
    let e2 := e1 ++ [.resolveCall w.goos w.goarch version]
    match getPklDownloadURL w.goos w.goarch version with
    | .error err => (.error ("failed to get download URL: " ++ err), fs, e2)
    | .ok url =>
      let e3 := e2 ++ [.httpRequest url]
      match w.client url with
      | .error err => (.error ("failed to download binary: " ++ err), fs, e3)
      | .ok resp =>
        if resp.statusCode = 200 then
          let e4 := e3 ++ [.fsCreate path]
          match w.createErr with
          | some err => (.error ("failed to create file: " ++ err), fs, e4)
          | none =>
            let fs1 := fs.update path ⟨"", defaultCreateMode⟩
            let e5 := e4 ++ [.fsWrite path]
            match w.copyErr with
            | some ke =>
              (.error ("failed to write file: " ++ ke.2),
               fs1.update path ⟨resp.body.take ke.1, defaultCreateMode⟩, e5)
            | none =>
              let fs2 := fs1.update path ⟨resp.body, defaultCreateMode⟩
              let e6 := e5 ++ [.fsChmod path executableMode]
              match w.chmodErr with
              | some err =>
                  (.error ("failed to make file executable: " ++ err), fs2, e6)
              | none => (.ok (), fs2.update path ⟨resp.body, executableMode⟩, e6)
        else
          (.error ("failed to download binary: status code " ++ toString resp.statusCode),
           fs, e3)

/-- The empty filesystem, used by concrete runs below. -/
def emptyFS : FS := fun _ => none

/-- A client serving the release index with tag `0.28.2` and any artifact URL
with a ten-byte body. -/
def okClient : Client := fun url =>
  if url = releasesLatestURL then
    .ok ⟨200, "\x7b\"tag_name\": \"0.28.2\"\x7d"⟩
  else
    .ok ⟨200, "0123456789"⟩

/-- A fully succeeding world on linux/amd64. -/
def okWorld : World :=
  ⟨okClient, "linux", "amd64", none, none, none⟩

example : (Download okWorld "/tmp/pkl" emptyFS).1 = .ok () := by rfl

example :
    (Download okWorld "/tmp/pkl" emptyFS).2.1 "/tmp/pkl" =
      some ⟨"0123456789", executableMode⟩ := by
  rfl

/-! ### Helper lemmas -/

/-- Peeling a slash-free head off both sides of an append around an explicit
slash is injective. -/
theorem append_slash_inj (l : List Char) : ∀ (m : List Char), '/' ∉ l → '/' ∉ m →
    ∀ (r s : List Char), l ++ ('/' :: r) = m ++ ('/' :: s) → l = m ∧ r = s := by
  induction l with
  | nil =>
    intro m _ hm r s h
    cases m with
    | nil =>
      simp only [List.nil_append] at h
      injection h with h1 h2
      exact ⟨rfl, h2⟩
    | cons c m2 =>
      simp only [List.nil_append, List.cons_append] at h
      injection h with h1 h2
      subst h1
      exact absurd (List.mem_cons_self _ _) hm
  | cons c l2 ih =>
    intro m hl hm r s h
    cases m with
    | nil =>
      simp only [List.nil_append, List.cons_append] at h
      injection h with h1 h2
      subst h1
      exact absurd (List.mem_cons_self _ _) hl
    | cons d m2 =>
      simp only [List.cons_append] at h
      injection h with h1 h2
      subst h1
      have hl2 : '/' ∉ l2 := fun hx => hl (List.mem_cons_of_mem _ hx)
      have hm2 : '/' ∉ m2 := fun hx => hm (List.mem_cons_of_mem _ hx)
      obtain ⟨ha, hb⟩ := ih m2 hl2 hm2 r s h2
      exact ⟨by rw [ha], hb⟩

/-- A `GOOS/GOARCH` key built by `lookupKey` determines the pair, as long as
the two components of the target are slash-free (which every key of the
compatibility table is). -/
theorem lookupKey_inj (os arch k a : String)
    (hk : '/' ∉ k.data) (ha : '/' ∉ a.data)
    (h : lookupKey os arch = k ++ "/" ++ a) : os = k ∧ arch = a := by
  have hd : os.data ++ ('/' :: arch.data) = k.data ++ ('/' :: a.data) := by
    have h0 := congrArg String.data h
    simpa [lookupKey, String.data_append] using h0
  by_cases hos : '/' ∈ os.data
  · exfalso
    have hcount := congrArg (List.count '/') hd
    rw [List.count_append, List.count_append] at hcount
    have h1 : 0 < List.count '/' os.data := List.count_pos_iff.mpr hos
    have h2 : List.count '/' k.data = 0 := by
      by_contra hc
      exact hk (List.count_pos_iff.mp (Nat.pos_of_ne_zero hc))
    have h3 : List.count '/' a.data = 0 := by
      by_contra hc
      exact ha (List.count_pos_iff.mp (Nat.pos_of_ne_zero hc))
    simp only [List.count_cons] at hcount
    simp only [h2, h3, beq_self_eq_true, if_pos] at hcount
    omega
  · obtain ⟨h1, h2⟩ := append_slash_inj os.data k.data hos hk arch.data a.data hd
    exact ⟨String.ext h1, String.ext h2⟩

/-- Pairs outside the supported set miss the compatibility table. -/
theorem lookup_miss_of_not_mem (os arch : String)
    (h : (os, arch) ∉ supportedPairs) :
    downloadMap.lookup (lookupKey os arch) = none := by
  have h1 : lookupKey os arch ≠ "darwin/amd64" := by
    intro he
    obtain ⟨h3, h4⟩ :=
      lookupKey_inj os arch "darwin" "amd64" (by decide) (by decide) (he.trans (by rfl))
    subst h3; subst h4; exact h (by decide)
  have h2 : lookupKey os arch ≠ "darwin/arm64" := by
    intro he
    obtain ⟨h3, h4⟩ :=
      lookupKey_inj os arch "darwin" "arm64" (by decide) (by decide) (he.trans (by rfl))
    subst h3; subst h4; exact h (by decide)
  have h3 : lookupKey os arch ≠ "linux/amd64" := by
    intro he
    obtain ⟨h5, h6⟩ :=
      lookupKey_inj os arch "linux" "amd64" (by decide) (by decide) (he.trans (by rfl))
    subst h5; subst h6; exact h (by decide)
  have h4 : lookupKey os arch ≠ "linux/arm64" := by
    intro he
    obtain ⟨h5, h6⟩ :=
      lookupKey_inj os arch "linux" "arm64" (by decide) (by decide) (he.trans (by rfl))
    subst h5; subst h6; exact h (by decide)
  have h5 : lookupKey os arch ≠ "windows/amd64" := by
    intro he
    obtain ⟨h6, h7⟩ :=
      lookupKey_inj os arch "windows" "amd64" (by decide) (by decide) (he.trans (by rfl))
    subst h6; subst h7; exact h (by decide)
  simp [downloadMap, List.lookup, beq_eq_false_iff_ne.mpr h1,
    beq_eq_false_iff_ne.mpr h2, beq_eq_false_iff_ne.mpr h3,
    beq_eq_false_iff_ne.mpr h4, beq_eq_false_iff_ne.mpr h5]

/-! ### The claims -/

/-- C1: for each of the five compatibility-table entries and every version
string, URL resolution succeeds and returns exactly the fixed base URL, the
version, a slash, and the filename of that entry; in particular linux/amd64 at
`0.28.2` yields `.../0.28.2/pkl-linux-amd64`, darwin/arm64 yields filename
`pkl-macos-aarch64`, and the windows/amd64 filename ends in `.exe`. -/
theorem resolve_table_exact (v : String) :
    (getPklDownloadURL "darwin" "amd64" v =
      .ok ("https://github.com/apple/pkl/releases/download/" ++ v ++ "/" ++
        "pkl-macos-amd64")) ∧
    (getPklDownloadURL "darwin" "arm64" v =
      .ok ("https://github.com/apple/pkl/releases/download/" ++ v ++ "/" ++
        "pkl-macos-aarch64")) ∧
    (getPklDownloadURL "linux" "amd64" v =
      .ok ("https://github.com/apple/pkl/releases/download/" ++ v ++ "/" ++
        "pkl-linux-amd64")) ∧
    (getPklDownloadURL "linux" "arm64" v =
      .ok ("https://github.com/apple/pkl/releases/download/" ++ v ++ "/" ++
        "pkl-linux-aarch64")) ∧
    (getPklDownloadURL "windows" "amd64" v =
      .ok ("https://github.com/apple/pkl/releases/download/" ++ v ++ "/" ++
        "pkl-windows-amd64.exe")) ∧
    (getPklDownloadURL "linux" "amd64" "0.28.2" =
      .ok "https://github.com/apple/pkl/releases/download/0.28.2/pkl-linux-amd64") ∧
    ("pkl-windows-amd64.exe" = "pkl-windows-amd64" ++ ".exe") :=
  ⟨rfl, rfl, rfl, rfl, rfl, rfl, rfl⟩

/-- C2: for every `(OS, architecture)` pair outside the five table keys and
every version string, resolution fails with the unsupported-platform error
carrying exactly that pair, independently of the version. -/
theorem resolve_unsupported (os arch v : String)
    (h : (os, arch) ∉ supportedPairs) :
    getPklDownloadURL os arch v =
      .error ("unsupported OS/architecture combination: " ++ os ++ "/" ++ arch) := by
  have hnone := lookup_miss_of_not_mem os arch h
  simp [getPklDownloadURL, hnone]

/-- Witness for C2 at the concrete pair `freebsd/riscv`. -/
theorem resolve_unsupported_witness :
    ("freebsd", "riscv") ∉ supportedPairs ∧
    getPklDownloadURL "freebsd" "riscv" "1.2.3" =
      .error "unsupported OS/architecture combination: freebsd/riscv" :=
  ⟨by decide,
   (resolve_unsupported "freebsd" "riscv" "1.2.3" (by decide)).trans (by rfl)⟩

/-- C3: a non-success release-index status makes the version lookup fail with
the bad-status error carrying that exact code, `Download` returns it wrapped
with the version-lookup prefix, the filesystem is untouched, and the trace
shows the artifact resolver and the download transport were never invoked. -/
theorem download_index_badStatus (w : World) (path : String) (fs : FS)
    (resp : Response) (hc : w.client releasesLatestURL = .ok resp)
    (hs : resp.statusCode ≠ 200) :
    Download w path fs =
      (.error ("failed to get latest version: " ++
        ("failed to fetch latest release: status code " ++ toString resp.statusCode)),
       fs, [.httpRequest releasesLatestURL]) ∧
    ((Download w path fs).2.2.any Event.isResolve = false) ∧
    ((Download w path fs).2.2.countP Event.isHttp = 1) := by
  have h1 : getLatestPklVersion w.client =
      .error ("failed to fetch latest release: status code " ++ toString resp.statusCode) := by
    unfold getLatestPklVersion
    rw [hc]
    simp [hs]
  have h2 : Download w path fs =
      (.error ("failed to get latest version: " ++
        ("failed to fetch latest release: status code " ++ toString resp.statusCode)),
       fs, [.httpRequest releasesLatestURL]) := by
    unfold Download
    rw [h1]
  exact ⟨h2, by rw [h2]; rfl, by rw [h2]; rfl⟩

/-- A client answering every request with status 404. -/
def badStatusClient : Client := fun _ => .ok ⟨404, "Not Found"⟩

/-- A world whose release-index lookup gets a 404. -/
def badStatusWorld : World := ⟨badStatusClient, "linux", "amd64", none, none, none⟩

/-- Witness for C3 at a concrete 404 release-index response. -/
theorem download_index_badStatus_witness :
    Download badStatusWorld "/tmp/pkl" emptyFS =
      (.error ("failed to get latest version: " ++
        ("failed to fetch latest release: status code " ++ toString (404 : Nat))),
       emptyFS, [.httpRequest releasesLatestURL]) ∧
    ((Download badStatusWorld "/tmp/pkl" emptyFS).2.2.any Event.isResolve = false) ∧
    ((Download badStatusWorld "/tmp/pkl" emptyFS).2.2.countP Event.isHttp = 1) :=
  download_index_badStatus badStatusWorld "/tmp/pkl" emptyFS ⟨404, "Not Found"⟩ rfl
    (by decide)

/-- C4: when the lookup, the resolution and the artifact GET all succeed and
nothing fails locally, `Download` succeeds and the target file holds exactly
the response body with mode 0755, which was set by an explicit chmod and
differs from the default creation mode. -/
theorem download_success (w : World) (path : String) (fs : FS)
    (version url body : String)
    (h1 : getLatestPklVersion w.client = .ok version)
    (h2 : getPklDownloadURL w.goos w.goarch version = .ok url)
    (h3 : w.client url = .ok ⟨200, body⟩)
    (h4 : w.createErr = none) (h5 : w.copyErr = none) (h6 : w.chmodErr = none) :
    (Download w path fs).1 = .ok () ∧
    (Download w path fs).2.1 path = some ⟨body, executableMode⟩ ∧
    .fsChmod path executableMode ∈ (Download w path fs).2.2 ∧
    executableMode = 0o755 ∧ executableMode ≠ defaultCreateMode := by
  have hD : Download w path fs =
      (.ok (),
       ((fs.update path ⟨"", defaultCreateMode⟩).update path
          ⟨body, defaultCreateMode⟩).update path ⟨body, executableMode⟩,
       [.httpRequest releasesLatestURL, .resolveCall w.goos w.goarch version,
        .httpRequest url, .fsCreate path, .fsWrite path,
        .fsChmod path executableMode]) := by
    unfold Download
    rw [h1]; dsimp only
    rw [h2]; dsimp only
    rw [h3]; dsimp only
    rw [if_pos rfl, h4]; dsimp only
    rw [h5]; dsimp only
    rw [h6]
    rfl
  refine ⟨by rw [hD], ?_, by rw [hD]; simp, by rfl, by decide⟩
  rw [hD]
  simp [FS.update]

/-- Witness for C4: the fully succeeding world installs the ten-byte body at
`/tmp/pkl` with mode 0755. -/
theorem download_success_witness :
    (Download okWorld "/tmp/pkl" emptyFS).1 = .ok () ∧
    (Download okWorld "/tmp/pkl" emptyFS).2.1 "/tmp/pkl" =
      some ⟨"0123456789", executableMode⟩ ∧
    .fsChmod "/tmp/pkl" executableMode ∈ (Download okWorld "/tmp/pkl" emptyFS).2.2 ∧
    executableMode = 0o755 ∧ executableMode ≠ defaultCreateMode :=
  download_success okWorld "/tmp/pkl" emptyFS "0.28.2"
    "https://github.com/apple/pkl/releases/download/0.28.2/pkl-linux-amd64"
    "0123456789" rfl rfl rfl rfl rfl rfl

/-- A client answering the release index with status 200 and an empty JSON
object as body, which has no version-tag field. -/
def emptyObjClient : Client := fun _ => .ok ⟨200, "\x7b\x7d"⟩

/-- Counterexample to C5: a success-status body that is a well-formed JSON
object with no version-tag field does not make the lookup fail with a
ParseError — `json.Unmarshal` leaves the field at its zero value and the
lookup returns the empty version. -/
theorem lookup_no_tag_cex :
    getLatestPklVersion emptyObjClient = .ok "" := by rfl

/-- A client answering the release index with status 200 and a body that is
not JSON at all. -/
def badJsonClient : Client := fun _ => .ok ⟨200, "not json"⟩

/-- C5 amended: a success-status body that is not decodable as a single JSON
document fails with the ParseError wrapping; but a well-formed JSON object
without a version-tag field is not an error — the lookup yields the empty
version for it. -/
theorem lookup_parse_error (client : Client) (resp : Response)
    (h1 : client releasesLatestURL = .ok resp)
    (h2 : resp.statusCode = 200)
    (h3 : (parseJson resp.body).isNone = true) :
    getLatestPklVersion client =
      .error ("failed to parse release data: " ++ "invalid JSON body") ∧
    getLatestPklVersion emptyObjClient = .ok "" := by
  have hn : parseJson resp.body = none := Option.isNone_iff_eq_none.mp h3
  constructor
  · unfold getLatestPklVersion unmarshalRelease
    rw [h1]
    simp [h2, hn]
  · rfl

/-- Witness for the amended C5 at a concrete non-JSON body. -/
theorem lookup_parse_error_witness :
    getLatestPklVersion badJsonClient =
      .error ("failed to parse release data: " ++ "invalid JSON body") ∧
    getLatestPklVersion emptyObjClient = .ok "" :=
  lookup_parse_error badJsonClient ⟨200, "not json"⟩ rfl rfl (by rfl)

/-- C7: a non-success status on the artifact GET fails with the bad-status
error carrying the numeric code, wrapped with the transport prefix; the
filesystem is completely untouched and no file-creation is even attempted. -/
theorem download_artifact_badStatus (w : World) (path : String) (fs : FS)
    (version url : String) (resp : Response)
    (h1 : getLatestPklVersion w.client = .ok version)
    (h2 : getPklDownloadURL w.goos w.goarch version = .ok url)
    (h3 : w.client url = .ok resp)
    (h4 : resp.statusCode ≠ 200) :
    Download w path fs =
      (.error ("failed to download binary: status code " ++ toString resp.statusCode),
       fs,
       [.httpRequest releasesLatestURL, .resolveCall w.goos w.goarch version,
        .httpRequest url]) ∧
    (Download w path fs).2.1 path = fs path ∧
    ((Download w path fs).2.2.any Event.isCreate = false) := by
  have hD : Download w path fs =
      (.error ("failed to download binary: status code " ++ toString resp.statusCode),
       fs,
       [.httpRequest releasesLatestURL, .resolveCall w.goos w.goarch version,
        .httpRequest url]) := by
    unfold Download
    rw [h1]; dsimp only
    rw [h2]; dsimp only
    rw [h3]; dsimp only
    rw [if_neg h4]
    rfl
  exact ⟨hD, by rw [hD], by rw [hD]; rfl⟩

/-- A client serving the index correctly but answering the artifact GET with
status 500. -/
def badArtifactClient : Client := fun url =>
  if url = releasesLatestURL then
    .ok ⟨200, "\x7b\"tag_name\": \"0.28.2\"\x7d"⟩
  else
    .ok ⟨500, "oops"⟩

/-- A world whose artifact GET gets a 500. -/
def badArtifactWorld : World := ⟨badArtifactClient, "linux", "amd64", none, none, none⟩

/-- Witness for C7 at a concrete 500 artifact response. -/
theorem download_artifact_badStatus_witness :
    Download badArtifactWorld "/tmp/pkl" emptyFS =
      (.error ("failed to download binary: status code " ++ toString (500 : Nat)),
       emptyFS,
       [.httpRequest releasesLatestURL, .resolveCall "linux" "amd64" "0.28.2",
        .httpRequest
          "https://github.com/apple/pkl/releases/download/0.28.2/pkl-linux-amd64"]) ∧
    (Download badArtifactWorld "/tmp/pkl" emptyFS).2.1 "/tmp/pkl" = emptyFS "/tmp/pkl" ∧
    ((Download badArtifactWorld "/tmp/pkl" emptyFS).2.2.any Event.isCreate = false) :=
  download_artifact_badStatus badArtifactWorld "/tmp/pkl" emptyFS "0.28.2"
    "https://github.com/apple/pkl/releases/download/0.28.2/pkl-linux-amd64"
    ⟨500, "oops"⟩ rfl rfl rfl (by decide)

/-- C10: when creation and the copy succeed but the chmod fails, `Download`
fails with the make-executable prefix while the fully written file stays at
the target path with the default creation mode — neither removed nor
truncated. -/
theorem download_chmod_fail (w : World) (path : String) (fs : FS)
    (version url body e : String)
    (h1 : getLatestPklVersion w.client = .ok version)
    (h2 : getPklDownloadURL w.goos w.goarch version = .ok url)
    (h3 : w.client url = .ok ⟨200, body⟩)
    (h4 : w.createErr = none) (h5 : w.copyErr = none)
    (h6 : w.chmodErr = some e) :
    (Download w path fs).1 = .error ("failed to make file executable: " ++ e) ∧
    (Download w path fs).2.1 path = some ⟨body, defaultCreateMode⟩ := by
  have hD : Download w path fs =
      (.error ("failed to make file executable: " ++ e),
       (fs.update path ⟨"", defaultCreateMode⟩).update path ⟨body, defaultCreateMode⟩,
       [.httpRequest releasesLatestURL, .resolveCall w.goos w.goarch version,
        .httpRequest url, .fsCreate path, .fsWrite path,
        .fsChmod path executableMode]) := by
    unfold Download
    rw [h1]; dsimp only
    rw [h2]; dsimp only
    rw [h3]; dsimp only
    rw [if_pos rfl, h4]; dsimp only
    rw [h5]; dsimp only
    rw [h6]
    rfl
  refine ⟨by rw [hD], ?_⟩
  rw [hD]
  simp [FS.update]

/-- A fully succeeding world on linux/amd64 except that the chmod fails. -/
def chmodFailWorld : World := ⟨okClient, "linux", "amd64", none, none, some "boom"⟩

/-- Witness for C10: the chmod-failing world leaves the complete body at the
target with the default creation mode. -/
theorem download_chmod_fail_witness :
    (Download chmodFailWorld "/tmp/pkl" emptyFS).1 =
      .error ("failed to make file executable: " ++ "boom") ∧
    (Download chmodFailWorld "/tmp/pkl" emptyFS).2.1 "/tmp/pkl" =
      some ⟨"0123456789", defaultCreateMode⟩ :=
  download_chmod_fail chmodFailWorld "/tmp/pkl" emptyFS "0.28.2"
    "https://github.com/apple/pkl/releases/download/0.28.2/pkl-linux-amd64"
    "0123456789" "boom" rfl rfl rfl rfl rfl rfl

/-- No string extending the fixed artifact base prefix equals the
release-index URL: the two fixed leading character runs already differ. -/
theorem downloadURL_ne_index (s : String) :
    "https://github.com/apple/pkl/releases/download/" ++ s ≠ releasesLatestURL := by
  intro h
  have hd := congrArg String.data h
  rw [String.data_append] at hd
  have h1 := List.take_left "https://github.com/apple/pkl/releases/download/".data s.data
  rw [hd] at h1
  exact absurd h1 (by decide)

/-- Any URL the artifact resolver returns differs from the release-index
URL. -/
theorem resolved_ne_index (goos goarch v url : String)
    (h : getPklDownloadURL goos goarch v = .ok url) :
    url ≠ releasesLatestURL := by
  unfold getPklDownloadURL at h
  cases hl : downloadMap.lookup (lookupKey goos goarch) with
  | none =>
    rw [hl] at h
    exact Except.noConfusion h
  | some filename =>
    rw [hl] at h
    dsimp only at h
    have hu : ("https://github.com/apple/pkl/releases/download/" ++ v ++ "/") ++ filename
        = url := Except.ok.inj h
    rw [← hu, String.append_assoc, String.append_assoc]
    exact downloadURL_ne_index _

/-- Counterexample to C6: a chmod failure makes `Download` return an error
whose message bears none of the three stage prefixes the claim says cover
every error. -/
theorem download_error_prefix_cex :
    (Download chmodFailWorld "/tmp/pkl" emptyFS).1 =
      .error "failed to make file executable: boom" ∧
    ("failed to get latest version: ".data.isPrefixOf
      "failed to make file executable: boom".data) = false ∧
    ("failed to get download URL: ".data.isPrefixOf
      "failed to make file executable: boom".data) = false ∧
    ("failed to download binary: ".data.isPrefixOf
      "failed to make file executable: boom".data) = false :=
  ⟨rfl, by decide, by decide, by decide⟩

/-- C6 amended: failures of the version-lookup, URL-resolution and
artifact-transport stages are each wrapped with exactly their
stage-identifying prefix, `": "`, and the underlying error message — but
these three forms do not cover every `Download` error, since the install
steps carry their own prefixes. -/
theorem download_stage_prefixes (w : World) (path : String) (fs : FS) :
    (∀ e, getLatestPklVersion w.client = .error e →
      (Download w path fs).1 = .error ("failed to get latest version: " ++ e)) ∧
    (∀ v e, getLatestPklVersion w.client = .ok v →
      getPklDownloadURL w.goos w.goarch v = .error e →
      (Download w path fs).1 = .error ("failed to get download URL: " ++ e)) ∧
    (∀ v u e, getLatestPklVersion w.client = .ok v →
      getPklDownloadURL w.goos w.goarch v = .ok u →
      w.client u = .error e →
      (Download w path fs).1 = .error ("failed to download binary: " ++ e)) := by
  refine ⟨?_, ?_, ?_⟩
  · intro e he
    unfold Download
    rw [he]
  · intro v e hv he
    unfold Download
    rw [hv]; dsimp only
    rw [he]
  · intro v u e hv hu he
    unfold Download
    rw [hv]; dsimp only
    rw [hu]; dsimp only
    rw [he]

/-- A client failing at the transport level for every request. -/
def netFailClient : Client := fun _ => .error "connection refused"

/-- A world whose very first request fails at the transport level. -/
def netFailWorld : World := ⟨netFailClient, "linux", "amd64", none, none, none⟩

/-- Witness for the amended C6: a transport failure of the index request
surfaces wrapped with the version-lookup prefix. -/
theorem download_stage_prefixes_witness :
    (Download netFailWorld "/tmp/pkl" emptyFS).1 =
      .error ("failed to get latest version: " ++
        "failed to fetch latest release: connection refused") :=
  (download_stage_prefixes netFailWorld "/tmp/pkl" emptyFS).1
    "failed to fetch latest release: connection refused" rfl

/-- C8: the three installation steps are attempted in the order create,
write, chmod (the full-success trace lists them in exactly that order); if
creation fails, the error surfaces with the create prefix, no chmod is
attempted and the filesystem is untouched; if the copy fails, the error
surfaces with the write prefix, no chmod is attempted and the file keeps the
default mode it was created with. -/
theorem download_install_order (w : World) (path : String) (fs : FS)
    (version url body : String)
    (h1 : getLatestPklVersion w.client = .ok version)
    (h2 : getPklDownloadURL w.goos w.goarch version = .ok url)
    (h3 : w.client url = .ok ⟨200, body⟩) :
    (w.createErr = none → w.copyErr = none → w.chmodErr = none →
      (Download w path fs).2.2 =
        [.httpRequest releasesLatestURL, .resolveCall w.goos w.goarch version,
         .httpRequest url, .fsCreate path, .fsWrite path,
         .fsChmod path executableMode]) ∧
    (∀ e, w.createErr = some e →
      (Download w path fs).1 = .error ("failed to create file: " ++ e) ∧
      ((Download w path fs).2.2.any Event.isChmod = false) ∧
      (Download w path fs).2.1 path = fs path) ∧
    (∀ k e, w.createErr = none → w.copyErr = some (k, e) →
      (Download w path fs).1 = .error ("failed to write file: " ++ e) ∧
      ((Download w path fs).2.2.any Event.isChmod = false) ∧
      (Download w path fs).2.1 path = some ⟨body.take k, defaultCreateMode⟩) := by
  refine ⟨?_, ?_, ?_⟩
  · intro hc hw hm
    unfold Download
    rw [h1]; dsimp only
    rw [h2]; dsimp only
    rw [h3]; dsimp only
    rw [if_pos rfl, hc]; dsimp only
    rw [hw]; dsimp only
    rw [hm]
    rfl
  · intro e hce
    unfold Download
    rw [h1]; dsimp only
    rw [h2]; dsimp only
    rw [h3]; dsimp only
    rw [if_pos rfl, hce]
    exact ⟨rfl, rfl, rfl⟩
  · intro k e hce hwe
    unfold Download
    rw [h1]; dsimp only
    rw [h2]; dsimp only
    rw [h3]; dsimp only
    rw [if_pos rfl, hce]; dsimp only
    rw [hwe]
    refine ⟨rfl, rfl, ?_⟩
    simp [FS.update]

/-- A fully succeeding world on linux/amd64 except that file creation
fails. -/
def createFailWorld : World := ⟨okClient, "linux", "amd64", some "disk full", none, none⟩

/-- Witness for C8 at a concrete creation failure. -/
theorem download_install_order_witness :
    (Download createFailWorld "/tmp/pkl" emptyFS).1 =
      .error ("failed to create file: " ++ "disk full") ∧
    ((Download createFailWorld "/tmp/pkl" emptyFS).2.2.any Event.isChmod = false) ∧
    (Download createFailWorld "/tmp/pkl" emptyFS).2.1 "/tmp/pkl" =
      emptyFS "/tmp/pkl" :=
  (download_install_order createFailWorld "/tmp/pkl" emptyFS "0.28.2"
    "https://github.com/apple/pkl/releases/download/0.28.2/pkl-linux-amd64"
    "0123456789" rfl rfl rfl).2.1 "disk full" rfl

/-- Is this event an HTTP request to the given URL? -/
def Event.isReqTo (u : String) : Event → Bool
  | .httpRequest v => v == u
  | _ => false

/-- The URL requested by an event, if it is an HTTP request. -/
def Event.reqURL : Event → Option String
  | .httpRequest v => some v
  | _ => none

/-- C9: every run of `Download` issues exactly one HTTP request to the
release-index endpoint and at most one other HTTP request (the artifact GET),
and no URL is ever requested twice — no retry happens. -/
theorem download_single_requests (w : World) (path : String) (fs : FS) :
    ((Download w path fs).2.2.countP (Event.isReqTo releasesLatestURL) = 1) ∧
    ((Download w path fs).2.2.countP
        (fun e => e.isHttp && !(Event.isReqTo releasesLatestURL e)) ≤ 1) ∧
    ((Download w path fs).2.2.filterMap Event.reqURL).Nodup := by
  unfold Download
  cases hv : getLatestPklVersion w.client with
  | error e =>
    refine ⟨?_, ?_, ?_⟩ <;>
      simp [Event.isReqTo, Event.isHttp, Event.reqURL, List.countP_cons]
  | ok version =>
    dsimp only
    cases hu : getPklDownloadURL w.goos w.goarch version with
    | error e =>
      refine ⟨?_, ?_, ?_⟩ <;>
        simp [Event.isReqTo, Event.isHttp, Event.reqURL, List.countP_cons]
    | ok url =>
      have hne : url ≠ releasesLatestURL := resolved_ne_index _ _ _ _ hu
      have hbe : (url == releasesLatestURL) = false := beq_eq_false_iff_ne.mpr hne
      have hns : releasesLatestURL ≠ url := hne.symm
      dsimp only
      cases hr : w.client url with
      | error e =>
        refine ⟨?_, ?_, ?_⟩ <;>
          simp [Event.isReqTo, Event.isHttp, Event.reqURL, List.countP_cons, hbe, hns]
      | ok resp =>
        dsimp only
        by_cases hsc : resp.statusCode = 200
        · rw [if_pos hsc]
          cases hce : w.createErr with
          | some err =>
            refine ⟨?_, ?_, ?_⟩ <;>
              simp [Event.isReqTo, Event.isHttp, Event.reqURL, List.countP_cons, hbe, hns]
          | none =>
            dsimp only
            cases hwe : w.copyErr with
            | some ke =>
              refine ⟨?_, ?_, ?_⟩ <;>
                simp [Event.isReqTo, Event.isHttp, Event.reqURL, List.countP_cons, hbe, hns]
            | none =>
              dsimp only
              cases hme : w.chmodErr with
              | some err =>
                refine ⟨?_, ?_, ?_⟩ <;>
                  simp [Event.isReqTo, Event.isHttp, Event.reqURL, List.countP_cons,
                    hbe, hns]
              | none =>
                refine ⟨?_, ?_, ?_⟩ <;>
                  simp [Event.isReqTo, Event.isHttp, Event.reqURL, List.countP_cons,
                    hbe, hns]
        · rw [if_neg hsc]
          refine ⟨?_, ?_, ?_⟩ <;>
            simp [Event.isReqTo, Event.isHttp, Event.reqURL, List.countP_cons, hbe, hns]

end Pbl
